import Mathlib

/-! Verification of the emotion-detection backend (src/backend/main.py).

The data model, the authentication helpers, the entry-processing pipeline,
the insight mapping, the audio endpoint with its temporary-file handling,
and the history endpoint are embedded as executable Lean functions.
External collaborators (the Whisper transcriber, the emotion classifier,
the passlib bcrypt hasher, the jose JWT library and the Fernet cipher) are
not part of this repository: they enter as explicit inputs or as abstract
injective encodings, noted on each definition. -/

/-- Configuration constant `SECRET_KEY`. -/
def SECRET_KEY : String := "YOUR_SUPER_SECRET_KEY_CHANGE_THIS"

/-- Configuration constant `ACCESS_TOKEN_EXPIRE_MINUTES = 60 * 24` (24 hours),
measured in minutes, which is the time unit used throughout this embedding. -/
def ACCESS_TOKEN_EXPIRE_MINUTES : Int := 60 * 24

/-- Row of the `user` table. -/
structure User where
  id : Nat
  username : String
  email : String
  hashed_password : String
  deriving Repr, DecidableEq

/-- Input schema for signup. -/
structure UserCreate where
  username : String
  email : String
  password : String
  deriving Repr, DecidableEq

/-- Row of the `journalentry` table. `date` is the proleptic-Gregorian ordinal
of the calendar date (as in `datetime.date.toordinal`). -/
structure JournalEntry where
  id : Nat
  user_id : Nat
  date : Nat
  encrypted_content : List Nat
  emotion_primary : String
  emotion_score : ℚ
  deriving Repr, DecidableEq

/-- The SQLite database: both tables, rows in insertion (rowid) order. -/
structure DB where
  users : List User
  entries : List JournalEntry
  deriving Repr, DecidableEq

/-- The freshly created database. -/
def emptyDB : DB := ⟨[], []⟩

/-- A Python exception escaping an endpoint body: either an explicit
`fastapi.HTTPException`, or a plain `ValueError` (which the framework
surfaces as a 500 server response). -/
inductive PyErr where
  | httpException (statusCode : Nat) (detail : String)
  | valueError (msg : String)
  deriving Repr, DecidableEq

/-- Python `str(e)`: starlette renders an `HTTPException` as
`"{status_code}: {detail}"`; a `ValueError` renders as its message. -/
def pyStr : PyErr → String
  | .httpException code detail => toString code ++ ": " ++ detail
  | .valueError msg => msg

/-- Whether the caller-visible failure is an HTTP client error (4xx).
An exception that is not an `HTTPException` escapes the endpoint and is
surfaced by the framework as a 500 server response, so it is never a
client error. -/
def isClientError : PyErr → Bool
  | .httpException code _ => decide (400 ≤ code) && decide (code < 500)
  | .valueError _ => false

/-- The bcrypt hash from the external passlib library, modelled as an
injective tagging; no claim depends on its value. -/
def get_password_hash (password : String) : String := "bcrypt$" ++ password

/-- The Fernet encryption of the entry text. The cipher is an external
collaborator; it is modelled as an injective encoding of the plaintext. -/
def cipher_encrypt (text : String) : List Nat := text.data.map Char.toNat

/-- Insertion of the new user row performed at the end of `signup`
(`session.add` + `session.commit`); the id is the next rowid. -/
def signupInsert (user_data : UserCreate) (db : DB) : Except PyErr String × DB :=
  let new_user : User :=
    ⟨db.users.length + 1, user_data.username, user_data.email,
     get_password_hash user_data.password⟩
  (.ok "User created successfully", { db with users := db.users ++ [new_user] })

/-- `POST /signup`: look up the first row whose username OR email matches,
report the matching field as a 400, otherwise insert. Returns the response
and the post-state. -/
def signup (user_data : UserCreate) (db : DB) : Except PyErr String × DB :=
  match db.users.find? (fun u => u.username == user_data.username || u.email == user_data.email) with
  | some existing_user =>
    if existing_user.username == user_data.username then
      (.error (.httpException 400 "Username already taken"), db)
    else if existing_user.email == user_data.email then
      (.error (.httpException 400 "Email already registered"), db)
    else
      signupInsert user_data db
  | none => signupInsert user_data db

/-- A JWT as produced by `create_access_token`: payload fields `sub` and
`exp`, plus the signing key the signature binds it to. -/
structure Token where
  sub : Option String
  exp : Int
  key : String
  deriving Repr, DecidableEq

/-- `create_access_token({"sub": username})` issued at time `now`:
expiry is `now + ACCESS_TOKEN_EXPIRE_MINUTES`, signed with `SECRET_KEY`. -/
def create_access_token (sub : String) (now : Int) : Token :=
  { sub := some sub, exp := now + ACCESS_TOKEN_EXPIRE_MINUTES, key := SECRET_KEY }

/-- Modelled from the spec: `jwt.decode` of the external jose library.
"a token is valid iff its signature verifies under the process secret AND
current time < expires_at"; signature verification is modelled as equality
of the signing key. Returns the payload's `sub` field on success, `none`
where the library raises `JWTError`. -/
def jwt_decode (token : Token) (key : String) (now : Int) : Option (Option String) :=
  if token.key = key ∧ now < token.exp then some token.sub else none

/-- The 401 raised by `get_current_user` on any validation failure. -/
def credentials_exception : PyErr := .httpException 401 "Could not validate credentials"

/-- `get_current_user`: decode the token, extract `sub`, and re-resolve the
account by a fresh username lookup on every call. -/
def get_current_user (db : DB) (token : Token) (now : Int) : Except PyErr User :=
  match jwt_decode token SECRET_KEY now with
  | none => .error credentials_exception
  | some none => .error credentials_exception
  | some (some username) =>
    match db.users.find? (fun u => u.username == username) with
    | none => .error credentials_exception
    | some u => .ok u

/-- The closed table of 28 emotion labels, indexed 0..27 as in the
`EMOTION_LABELS` dict (whose keys are exactly the consecutive integers
0..27). -/
def EMOTION_LABELS : List String :=
  ["admiration", "amusement", "anger", "annoyance", "approval",
   "caring", "confusion", "curiosity", "desire", "disappointment",
   "disapproval", "disgust", "embarrassment", "excitement", "fear",
   "gratitude", "grief", "joy", "love", "nervousness",
   "optimism", "pride", "realization", "relief", "remorse",
   "sadness", "surprise", "neutral"]

/-- `EMOTION_LABELS.get(max_idx, "neutral")`: table lookup with the
out-of-range default. -/
def emotionLabelGet (idx : Nat) : String := EMOTION_LABELS.getD idx "neutral"

/-- Accumulator loop of the Python builtin `max`: keeps the current value
unless a strictly greater one appears. -/
def pyMaxAux (acc : ℚ) : List ℚ → ℚ
  | [] => acc
  | x :: xs => pyMaxAux (if x > acc then x else acc) xs

/-- Python builtin `max` on a list; `none` on the empty list, where CPython
raises `ValueError`. -/
def pyMax : List ℚ → Option ℚ
  | [] => none
  | x :: xs => some (pyMaxAux x xs)

/-- Python `list.index(v)`: the first position holding `v` (the length if
absent, where CPython raises; never reached on the argmax use). -/
def pyIndex (l : List ℚ) (v : ℚ) : Nat := l.findIdx (fun x => decide (x = v))

/-- Group of the first insight check. -/
def angerGroup : List String := ["anger", "annoyance"]

/-- Group of the second insight check. -/
def joyGroup : List String := ["joy", "excitement", "optimism"]

/-- Group of the third insight check. -/
def sadnessGroup : List String := ["sadness", "grief", "disappointment"]

/-- Group of the fourth insight check. -/
def fearGroup : List String := ["fear", "nervousness"]

/-- The insight block of `process_entry_logic`: a default followed by four
sequential membership checks, each overwriting the value when it fires. -/
def insight (emotion : String) : String :=
  let i0 := "Take a moment to breathe."
  let i1 := if emotion ∈ angerGroup then
    "Try the physiological sigh: 2 short inhales, 1 long exhale to reset autonomic nervous system."
    else i0
  let i2 := if emotion ∈ joyGroup then
    "Savoring: Write down 3 specific sensory details about this feeling to strengthen neural pathways."
    else i1
  let i3 := if emotion ∈ sadnessGroup then
    "Behavioral Activation: Do one very small, functional task (like washing a cup) to break the inertia."
    else i2
  let i4 := if emotion ∈ fearGroup then
    "Box Breathing: Inhale 4s, Hold 4s, Exhale 4s, Hold 4s to activate the parasympathetic system."
    else i3
  i4

/-- The same insight block with the four group checks performed in the
reverse order; used to show the check order does not affect the result. -/
def insightReordered (emotion : String) : String :=
  let i0 := "Take a moment to breathe."
  let i1 := if emotion ∈ fearGroup then
    "Box Breathing: Inhale 4s, Hold 4s, Exhale 4s, Hold 4s to activate the parasympathetic system."
    else i0
  let i2 := if emotion ∈ sadnessGroup then
    "Behavioral Activation: Do one very small, functional task (like washing a cup) to break the inertia."
    else i1
  let i3 := if emotion ∈ joyGroup then
    "Savoring: Write down 3 specific sensory details about this feeling to strengthen neural pathways."
    else i2
  let i4 := if emotion ∈ angerGroup then
    "Try the physiological sigh: 2 short inhales, 1 long exhale to reset autonomic nervous system."
    else i3
  i4

/-- Gregorian leap-year test, as in `datetime`. -/
def isLeapYear (y : Nat) : Bool := y % 4 == 0 && (y % 100 != 0 || y % 400 == 0)

/-- Number of days of month `m` in year `y`. -/
def daysInMonth (y m : Nat) : Nat :=
  if m == 2 then (if isLeapYear y then 29 else 28)
  else if m == 4 || m == 6 || m == 9 || m == 11 then 30
  else 31

/-- Days in year `y` strictly before month `m`. -/
def daysBeforeMonth (y m : Nat) : Nat :=
  (List.range (m - 1)).foldl (fun acc i => acc + daysInMonth y (i + 1)) 0

/-- `datetime.date.toordinal`: day count with 0001-01-01 as day 1. -/
def toOrdinal (y m d : Nat) : Nat :=
  (y - 1) * 365 + (y - 1) / 4 - (y - 1) / 100 + (y - 1) / 400 + daysBeforeMonth y m + d

/-- Split a character sequence at every dash, the literal separator of the
`"%Y-%m-%d"` format. -/
def splitOnDash (cs : List Char) (acc : List Char) : List (List Char) :=
  match cs with
  | [] => [acc.reverse]
  | c :: rest => if c = '-' then acc.reverse :: splitOnDash rest [] else splitOnDash rest (c :: acc)

/-- Value of a sequence of decimal digits. -/
def digitsToNat (cs : List Char) : Nat :=
  cs.foldl (fun acc c => acc * 10 + (c.toNat - 48)) 0

/-- `datetime.datetime.strptime(date_str, "%Y-%m-%d").date()`: a four-digit
year, a one/two-digit month 1..12 and a one/two-digit day valid for that
month, the three fields separated by literal dashes with nothing left over;
`none` where CPython raises `ValueError`. Returns the date's ordinal. -/
def parseDate (s : String) : Option Nat :=
  match splitOnDash s.data [] with
  | [ys, ms, ds] =>
    if ys.length = 4 ∧ ys.all Char.isDigit
        ∧ (ms.length = 1 ∨ ms.length = 2) ∧ ms.all Char.isDigit
        ∧ (ds.length = 1 ∨ ds.length = 2) ∧ ds.all Char.isDigit then
      let y := digitsToNat ys
      let m := digitsToNat ms
      let d := digitsToNat ds
      if 1 ≤ y ∧ 1 ≤ m ∧ m ≤ 12 ∧ 1 ≤ d ∧ d ≤ daysInMonth y m then
        some (toOrdinal y m d)
      else none
    else none
  | _ => none

/-- Python `round(x, 2)` — round half to even at two decimals — on exact
rationals. -/
def pyRound2 (x : ℚ) : ℚ :=
  let y := x * 100
  let f : ℤ := ⌊y⌋
  let r : ℚ := y - f
  let n : ℤ :=
    if r < 1/2 then f
    else if 1/2 < r then f + 1
    else if f % 2 = 0 then f else f + 1
  (n : ℚ) / 100

/-- The response dict assembled by `process_entry_logic`. -/
structure ProcessResult where
  emotion : String
  score : ℚ
  insight : String
  history_count : Nat
  deriving Repr, DecidableEq

/-- `process_entry_logic`. The emotion classifier is an external
collaborator: `probs` is the probability vector
`torch.sigmoid(outputs.logits).squeeze().tolist()` it produced for `text`.
Steps, in source order: argmax emotion and max score, encrypt, parse the
date, insert the entry, re-query the 90-day window for this user, derive
the insight, assemble the response. Returns the response (or the escaping
exception) together with the post-state. -/
def process_entry_logic (text : String) (probs : List ℚ) (date_str : String)
    (user : User) (db : DB) : Except PyErr ProcessResult × DB :=
  match pyMax probs with
  | none => (.error (.valueError "max() arg is an empty sequence"), db)
  | some m =>
    let max_idx := pyIndex probs m
    let emotion := emotionLabelGet max_idx
    let score := m
    let encrypted_text := cipher_encrypt text
    match parseDate date_str with
    | none => (.error (.valueError "time data does not match format %Y-%m-%d"), db)
    | some entry_date =>
      let new_entry : JournalEntry :=
        ⟨db.entries.length + 1, user.id, entry_date, encrypted_text, emotion, score⟩
      let db2 : DB := { db with entries := db.entries ++ [new_entry] }
      let history_results := db2.entries.filter
        (fun e => decide (e.user_id = user.id ∧ (entry_date : Int) - 90 ≤ (e.date : Int)))
      (.ok ⟨emotion, pyRound2 (score * 100), insight emotion, history_results.length⟩, db2)

/-- `POST /analyze-text`: delegates directly to `process_entry_logic`,
with no check of any kind on the submitted text. -/
def analyze_text (text : String) (probs : List ℚ) (date : String)
    (current_user : User) (db : DB) : Except PyErr ProcessResult × DB :=
  process_entry_logic text probs date current_user db

/-- The extension part of `os.path.splitext`: the suffix starting at the
last dot of the basename, unless the basename consists only of leading
dots, in which case it is empty. -/
def splitextExt (p : String) : String :=
  let base := (p.data.reverse.takeWhile (fun c => c ≠ '/')).reverse
  let stripped := base.dropWhile (fun c => c = '.')
  if stripped.any (fun c => c = '.') then
    String.mk ( '.' :: (stripped.reverse.takeWhile (fun c => c ≠ '.')).reverse)
  else ""

/-- `filename = file.filename or "recording.webm"` followed by
`file_ext = os.path.splitext(filename)[1] or ".webm"`. -/
def file_ext_of (filename : Option String) : String :=
  let filename := match filename with
    | none => "recording.webm"
    | some f => if f = "" then "recording.webm" else f
  let e := splitextExt filename
  if e = "" then ".webm" else e

/-- Python `str.strip()`: whitespace removed from both ends. -/
def pyStrip (s : String) : String :=
  String.mk (((s.data.dropWhile Char.isWhitespace).reverse.dropWhile Char.isWhitespace).reverse)

/-- The response dict of the audio endpoint: the base response plus the
`is_audio` flag and the transcription. -/
structure AudioResult where
  base : ProcessResult
  is_audio : Bool
  transcription : String
  deriving Repr, DecidableEq

instance {ε α : Type} [DecidableEq ε] [DecidableEq α] : DecidableEq (Except ε α) := fun x y =>
  match x, y with
  | .ok a, .ok b => decidable_of_iff (a = b) (by simp)
  | .error a, .error b => decidable_of_iff (a = b) (by simp)
  | .ok _, .error _ => isFalse (by simp)
  | .error _, .ok _ => isFalse (by simp)

/-- Observable outcome of one `analyze_audio` call: the HTTP response, the
post-state, the suffix the temporary file was created with, and whether the
`finally` block actually deleted that file. -/
structure AudioCall where
  response : Except PyErr AudioResult
  db : DB
  tmp_suffix : String
  tmp_removed : Bool
  deriving Repr, DecidableEq

/-- `POST /analyze-audio`. The transcriber is external: `transcript` is the
`"text"` field returned by `whisper_model.transcribe`; `probs` is the
classifier vector for the stripped transcript. `remove_fails` models the
temp-file removal itself failing, which the bare `except: pass` swallows.
The try body raises a 400 on an empty stripped transcript; the blanket
`except Exception` re-raises every escaping exception — including that
`HTTPException` — as a 500 whose detail is `str(e)`; the `finally` block
removes the temporary file on every exit path. -/
def analyze_audio (filename : Option String) (transcript : String) (probs : List ℚ)
    (date : String) (current_user : User) (db : DB) (remove_fails : Bool) : AudioCall :=
  let file_ext := file_ext_of filename
  let transcribed_text := pyStrip transcript
  let inner : Except PyErr AudioResult × DB :=
    if transcribed_text = "" then
      (.error (.httpException 400 "Could not transcribe audio."), db)
    else
      match process_entry_logic transcribed_text probs date current_user db with
      | (.ok r, db2) => (.ok ⟨r, true, transcribed_text⟩, db2)
      | (.error e, db2) => (.error e, db2)
  let response : Except PyErr AudioResult :=
    match inner.1 with
    | .ok r => .ok r
    | .error e => .error (.httpException 500 (pyStr e))
  ⟨response, inner.2, file_ext, !remove_fails⟩

/-- Date order on journal entries, used by `order_by(JournalEntry.date)`. -/
def dateLe (a b : JournalEntry) : Prop := a.date ≤ b.date

instance : DecidableRel dateLe := fun a b => Nat.decLe a.date b.date

instance : IsTotal JournalEntry dateLe := ⟨fun a b => Nat.le_total a.date b.date⟩

instance : IsTrans JournalEntry dateLe := ⟨fun _ _ _ => Nat.le_trans⟩

/-- `GET /history`: select the logged-in user's entries, order by date,
project each row to its (date, emotion) pair; the state is returned
unchanged. -/
def get_history (current_user : User) (db : DB) : List (Nat × String) × DB :=
  let entries := (db.entries.filter (fun e => e.user_id == current_user.id)).insertionSort dateLe
  (entries.map (fun e => (e.date, e.emotion_primary)), db)

/-- The accumulator result of `pyMaxAux` is the accumulator itself or a
list element. -/
theorem pyMaxAux_eq_or_mem (acc : ℚ) (l : List ℚ) :
    pyMaxAux acc l = acc ∨ pyMaxAux acc l ∈ l := by
  induction l generalizing acc with
  | nil => exact Or.inl rfl
  | cons x xs ih =>
    simp only [pyMaxAux]
    rcases ih (if x > acc then x else acc) with h | h
    · rw [h]
      by_cases hx : x > acc
      · rw [if_pos hx]; exact Or.inr (List.mem_cons_self _ _)
      · rw [if_neg hx]; exact Or.inl rfl
    · exact Or.inr (List.mem_cons_of_mem _ h)

/-- The accumulator result of `pyMaxAux` bounds the accumulator and every
list element from above. -/
theorem le_pyMaxAux (acc : ℚ) (l : List ℚ) :
    acc ≤ pyMaxAux acc l ∧ ∀ x ∈ l, x ≤ pyMaxAux acc l := by
  induction l generalizing acc with
  | nil => exact ⟨le_refl _, fun x hx => absurd hx (List.not_mem_nil x)⟩
  | cons y ys ih =>
    simp only [pyMaxAux]
    obtain ⟨h1, h2⟩ := ih (if y > acc then y else acc)
    have hacc : acc ≤ (if y > acc then y else acc) := by
      by_cases hy : y > acc
      · rw [if_pos hy]; exact le_of_lt hy
      · rw [if_neg hy]
    have hy' : y ≤ (if y > acc then y else acc) := by
      by_cases hy : y > acc
      · rw [if_pos hy]
      · rw [if_neg hy]; exact le_of_not_lt hy
    refine ⟨le_trans hacc h1, ?_⟩
    intro x hx
    rcases List.mem_cons.mp hx with rfl | hx'
    · exact le_trans hy' h1
    · exact h2 x hx'

/-- `pyMax` returns a member of the list that bounds every element. -/
theorem pyMax_spec (l : List ℚ) (m : ℚ) (h : pyMax l = some m) :
    m ∈ l ∧ ∀ x ∈ l, x ≤ m := by
  cases l with
  | nil => simp [pyMax] at h
  | cons x xs =>
    simp only [pyMax, Option.some.injEq] at h
    subst h
    constructor
    · rcases pyMaxAux_eq_or_mem x xs with h | h
      · rw [h]; exact List.mem_cons_self _ _
      · exact List.mem_cons_of_mem _ h
    · intro p hp
      rcases List.mem_cons.mp hp with rfl | hp'
      · exact (le_pyMaxAux p xs).1
      · exact (le_pyMaxAux x xs).2 p hp'

/-- `pyMax` succeeds on every non-empty list. -/
theorem pyMax_of_ne_nil (l : List ℚ) (h : l ≠ []) : ∃ m, pyMax l = some m := by
  cases l with
  | nil => exact absurd rfl h
  | cons x xs => exact ⟨pyMaxAux x xs, rfl⟩

/-- Indices outside the 28-label table fall back to `"neutral"`. -/
theorem emotionLabelGet_ge (i : Nat) (h : 28 ≤ i) : emotionLabelGet i = "neutral" := by
  have hlen : EMOTION_LABELS.length = 28 := by decide
  unfold emotionLabelGet
  rw [List.getD_eq_getElem?_getD, List.getElem?_eq_none (by omega)]
  rfl

/-- The `JournalEntry(...)` row constructed by `process_entry_logic` for
entry date `d` and classifier maximum `m`. -/
def madeEntry (text : String) (probs : List ℚ) (user : User) (db : DB) (d : Nat) (m : ℚ) :
    JournalEntry :=
  ⟨db.entries.length + 1, user.id, d, cipher_encrypt text,
   emotionLabelGet (pyIndex probs m), m⟩

/-- The 90-day-window predicate of the history re-query in
`process_entry_logic`. -/
def inWindow (user : User) (d : Nat) (e : JournalEntry) : Bool :=
  decide (e.user_id = user.id ∧ (d : Int) - 90 ≤ (e.date : Int))

/-- Shape of a successful `process_entry_logic` call: given the classifier
maximum and a parsable date, it returns the argmax response and appends
exactly one entry. -/
theorem process_entry_logic_ok_eq (text : String) (probs : List ℚ) (date_str : String)
    (user : User) (db : DB) (m : ℚ) (d : Nat)
    (hm : pyMax probs = some m) (hd : parseDate date_str = some d) :
    process_entry_logic text probs date_str user db =
      (.ok ⟨emotionLabelGet (pyIndex probs m), pyRound2 (m * 100),
            insight (emotionLabelGet (pyIndex probs m)),
            ((db.entries ++ [madeEntry text probs user db d m]).filter
              (inWindow user d)).length⟩,
       ⟨db.users, db.entries ++ [madeEntry text probs user db d m]⟩) := by
  simp only [process_entry_logic, hm, hd]
  rfl

/-- `process_entry_logic` on an unparsable date: the `ValueError` escapes
before anything is inserted. -/
theorem process_entry_logic_baddate (text : String) (probs : List ℚ) (date_str : String)
    (user : User) (db : DB) (m : ℚ)
    (hm : pyMax probs = some m) (hd : parseDate date_str = none) :
    process_entry_logic text probs date_str user db =
      (.error (.valueError "time data does not match format %Y-%m-%d"), db) := by
  simp only [process_entry_logic, hm, hd]

/-- C4: the insight mapping is a pure total function on labels: the four
hard-coded groups map to their four fixed coping strings, every other
string — in particular "neutral" — maps to the default
"Take a moment to breathe.", the four groups are pairwise disjoint, and
performing the group checks in the reverse order yields the same result on
every input. -/
theorem insight_mapping_spec :
    (∀ e ∈ angerGroup, insight e =
      "Try the physiological sigh: 2 short inhales, 1 long exhale to reset autonomic nervous system.")
  ∧ (∀ e ∈ joyGroup, insight e =
      "Savoring: Write down 3 specific sensory details about this feeling to strengthen neural pathways.")
  ∧ (∀ e ∈ sadnessGroup, insight e =
      "Behavioral Activation: Do one very small, functional task (like washing a cup) to break the inertia.")
  ∧ (∀ e ∈ fearGroup, insight e =
      "Box Breathing: Inhale 4s, Hold 4s, Exhale 4s, Hold 4s to activate the parasympathetic system.")
  ∧ (∀ e : String, e ∉ angerGroup → e ∉ joyGroup → e ∉ sadnessGroup → e ∉ fearGroup →
      insight e = "Take a moment to breathe.")
  ∧ insight "neutral" = "Take a moment to breathe."
  ∧ (∀ a ∈ angerGroup, a ∉ joyGroup ∧ a ∉ sadnessGroup ∧ a ∉ fearGroup)
  ∧ (∀ a ∈ joyGroup, a ∉ sadnessGroup ∧ a ∉ fearGroup)
  ∧ (∀ a ∈ sadnessGroup, a ∉ fearGroup)
  ∧ ("neutral" ∉ angerGroup ∧ "neutral" ∉ joyGroup ∧ "neutral" ∉ sadnessGroup ∧ "neutral" ∉ fearGroup)
  ∧ (∀ e : String, insightReordered e = insight e) := by
  refine ⟨by decide, by decide, by decide, by decide, ?_, by decide, by decide, by decide,
    by decide, by decide, ?_⟩
  · intro e h1 h2 h3 h4
    simp [insight, h1, h2, h3, h4]
  · intro e
    by_cases h1 : e ∈ angerGroup
    · have he : e = "anger" ∨ e = "annoyance" := by simpa [angerGroup] using h1
      rcases he with rfl | rfl <;> decide
    · by_cases h2 : e ∈ joyGroup
      · have he : e = "joy" ∨ e = "excitement" ∨ e = "optimism" := by simpa [joyGroup] using h2
        rcases he with rfl | rfl | rfl <;> decide
      · by_cases h3 : e ∈ sadnessGroup
        · have he : e = "sadness" ∨ e = "grief" ∨ e = "disappointment" := by
            simpa [sadnessGroup] using h3
          rcases he with rfl | rfl | rfl <;> decide
        · by_cases h4 : e ∈ fearGroup
          · have he : e = "fear" ∨ e = "nervousness" := by simpa [fearGroup] using h4
            rcases he with rfl | rfl <;> decide
          · simp [insight, insightReordered, h1, h2, h3, h4]

/-- Witness for C4: the first group conjunct applied at "anger". -/
theorem insight_mapping_witness :
    insight "anger" =
      "Try the physiological sigh: 2 short inhales, 1 long exhale to reset autonomic nervous system." :=
  insight_mapping_spec.1 "anger" (by decide)

/-- C9: on every exit path of `analyze_audio` the temporary file is removed
by the `finally` block whenever the removal itself succeeds; a failing
removal is swallowed and changes neither the response nor the stored state;
and the file's suffix is the upload's extension, defaulting to `.webm`. -/
theorem tempfile_cleanup_spec (filename : Option String) (transcript : String)
    (probs : List ℚ) (date : String) (user : User) (db : DB) :
    (analyze_audio filename transcript probs date user db false).tmp_removed = true
  ∧ (∀ rf : Bool,
      (analyze_audio filename transcript probs date user db rf).response
        = (analyze_audio filename transcript probs date user db false).response
      ∧ (analyze_audio filename transcript probs date user db rf).db
        = (analyze_audio filename transcript probs date user db false).db
      ∧ (analyze_audio filename transcript probs date user db rf).tmp_suffix
        = file_ext_of filename)
  ∧ file_ext_of none = ".webm"
  ∧ file_ext_of (some "voice.ogg") = ".ogg"
  ∧ file_ext_of (some "noext") = ".webm" :=
  ⟨rfl, fun _ => ⟨rfl, rfl, rfl⟩, by decide, by decide, by decide⟩

/-- Fixed user and state used by the concrete evaluations below. -/
def aliceUser : User := ⟨1, "alice", "alice@example.com", "h"⟩

/-- A database holding just `aliceUser`. -/
def dbAlice : DB := ⟨[aliceUser], []⟩

/-- C2: an audio request whose transcription is whitespace-only fails and
persists nothing, but the failure reaches the caller as HTTP 500 — the
explicitly raised `HTTPException(400)` is caught by the endpoint's blanket
`except Exception` and re-raised as a server error. -/
theorem analyze_audio_empty_transcript_500 :
    analyze_audio (some "a.webm") "   " [(1 : ℚ)/2] "2024-01-15" aliceUser dbAlice false =
      ⟨.error (.httpException 500 "400: Could not transcribe audio."), dbAlice, ".webm", true⟩ := by
  rfl

/-- C1: `get_history` leaves the state unchanged, every returned pair comes
from an entry owned by the calling account (so it never contains another
account's entries), the list is ordered ascending by date, and its length is
exactly the number of the caller's entries. -/
theorem get_history_scoped_sorted_pure (db : DB) (A : User) :
    (get_history A db).2 = db
  ∧ (∀ p ∈ (get_history A db).1,
      ∃ e ∈ db.entries, e.user_id = A.id ∧ p = (e.date, e.emotion_primary))
  ∧ List.Sorted (fun p q : Nat × String => p.1 ≤ q.1) (get_history A db).1
  ∧ (get_history A db).1.length = (db.entries.filter (fun e => e.user_id == A.id)).length := by
  refine ⟨rfl, ?_, ?_, ?_⟩
  · intro p hp
    simp only [get_history, List.mem_map] at hp
    obtain ⟨e, he, rfl⟩ := hp
    have he' : e ∈ db.entries.filter (fun e => e.user_id == A.id) :=
      (List.perm_insertionSort dateLe _).subset he
    rw [List.mem_filter] at he'
    exact ⟨e, he'.1, by simpa using he'.2, rfl⟩
  · have hs : List.Sorted dateLe
        ((db.entries.filter (fun e => e.user_id == A.id)).insertionSort dateLe) :=
      List.sorted_insertionSort dateLe _
    simp only [get_history]
    exact List.Pairwise.map _ (fun a b hab => hab) hs
  · simp only [get_history, List.length_map]
    exact (List.perm_insertionSort dateLe _).length_eq

/-- Second fixed user, owner of the entries that must never leak into
alice's history. -/
def bobUser : User := ⟨2, "bob", "bob@example.com", "h2"⟩

/-- A database where both alice (id 1) and bob (id 2) have created
entries. -/
def dbHist : DB :=
  ⟨[aliceUser, bobUser],
   [⟨1, 1, 100, [], "joy", 1/2⟩, ⟨2, 2, 50, [], "fear", 1/2⟩, ⟨3, 1, 50, [], "anger", 1/2⟩]⟩

/-- Witness for C1: the pair (50, "anger") returned to alice on `dbHist`
comes from one of alice's own entries. -/
theorem get_history_scoped_witness :
    ∃ e ∈ dbHist.entries, e.user_id = aliceUser.id ∧
      ((50 : Nat), "anger") = (e.date, e.emotion_primary) :=
  (get_history_scoped_sorted_pure dbHist aliceUser).2.1 (50, "anger") (by decide)

/-- C6: a token is valid iff its signature verifies under the process
secret and the current time is before `exp`; a token issued at `t0` whose
subject freshly resolves to `u` validates to `u` at any time before
`t0 + 24h` and fails from `t0 + 24h` on, the lifetime being exactly the
configured 24 hours (in minutes). -/
theorem token_validity_spec (db : DB) (u : User) (t0 now : Int)
    (hfind : db.users.find? (fun x => x.username == u.username) = some u) :
    (∀ t : Token, (jwt_decode t SECRET_KEY now).isSome ↔ (t.key = SECRET_KEY ∧ now < t.exp))
  ∧ (create_access_token u.username t0).exp = t0 + ACCESS_TOKEN_EXPIRE_MINUTES
  ∧ ACCESS_TOKEN_EXPIRE_MINUTES = 60 * 24
  ∧ (now < t0 + ACCESS_TOKEN_EXPIRE_MINUTES →
      get_current_user db (create_access_token u.username t0) now = .ok u)
  ∧ (t0 + ACCESS_TOKEN_EXPIRE_MINUTES ≤ now →
      get_current_user db (create_access_token u.username t0) now = .error credentials_exception) := by
  refine ⟨?_, rfl, rfl, ?_, ?_⟩
  · intro t
    unfold jwt_decode
    split
    · simp only [Option.isSome_some, true_iff]; assumption
    · simp only [Option.isSome_none, Bool.false_eq_true, false_iff]; assumption
  · intro hlt
    have hdec : jwt_decode (create_access_token u.username t0) SECRET_KEY now
        = some (some u.username) := by
      unfold jwt_decode create_access_token
      exact if_pos ⟨rfl, hlt⟩
    simp only [get_current_user, hdec, hfind]
  · intro hge
    have hdec : jwt_decode (create_access_token u.username t0) SECRET_KEY now = none := by
      unfold jwt_decode create_access_token
      refine if_neg ?_
      rintro ⟨-, h2⟩
      simp only [create_access_token] at h2
      omega
    simp only [get_current_user, hdec]

/-- Witness for C6: a token issued to alice at time 0 resolves to alice at
time 10. -/
theorem token_validity_witness :
    get_current_user dbAlice (create_access_token aliceUser.username 0) 10 = .ok aliceUser :=
  (token_validity_spec dbAlice aliceUser 0 10 (by decide)).2.2.2.1 (by decide)

/-- Signup request for bob. -/
def uBob : UserCreate := ⟨"bob", "bob@example.com", "pw1"⟩

/-- Signup request for alice. -/
def uAlice : UserCreate := ⟨"alice", "alice@example.com", "pw2"⟩

/-- Signup request re-using alice's username together with bob's email. -/
def uAliceBobMail : UserCreate := ⟨"alice", "bob@example.com", "pw3"⟩

/-- Counterexample to C5: after registering bob and then alice, a third
register with alice's username fails — but with the duplicate-EMAIL error,
not the duplicate-username error, because the supplied email matches bob,
the earlier row returned by the `or_` lookup's `first()`. -/
theorem signup_duplicate_error_counterexample :
    (signup uBob emptyDB).1 = .ok "User created successfully"
  ∧ (signup uAlice (signup uBob emptyDB).2).1 = .ok "User created successfully"
  ∧ (∃ x ∈ (signup uAlice (signup uBob emptyDB).2).2.users, x.username = uAliceBobMail.username)
  ∧ (signup uAliceBobMail (signup uAlice (signup uBob emptyDB).2).2).1
      = .error (.httpException 400 "Email already registered")
  ∧ (signup uAliceBobMail (signup uAlice (signup uBob emptyDB).2).2).1
      ≠ .error (.httpException 400 "Username already taken") := by
  decide

/-- C5 (amended): a fresh (username, email) pair registers exactly once; any
collision on either field fails with a 400 and leaves the state unchanged;
the duplicate-username error is guaranteed when no existing row holds the
supplied email, and the duplicate-email error when no existing row holds
the supplied username — when both fields collide, the earliest matching row
decides which of the two errors is reported. -/
theorem signup_spec_amended (u : UserCreate) (db : DB) :
    ((∀ x ∈ db.users, x.username ≠ u.username ∧ x.email ≠ u.email) →
      (signup u db).1 = .ok "User created successfully"
      ∧ (signup u db).2.users = db.users ++
          [⟨db.users.length + 1, u.username, u.email, get_password_hash u.password⟩])
  ∧ (((∃ x ∈ db.users, x.username = u.username) ∨ (∃ x ∈ db.users, x.email = u.email)) →
      (signup u db).2 = db
      ∧ ((signup u db).1 = .error (.httpException 400 "Username already taken")
         ∨ (signup u db).1 = .error (.httpException 400 "Email already registered")))
  ∧ ((∃ x ∈ db.users, x.username = u.username) → (∀ x ∈ db.users, x.email ≠ u.email) →
      (signup u db).1 = .error (.httpException 400 "Username already taken"))
  ∧ ((∀ x ∈ db.users, x.username ≠ u.username) → (∃ x ∈ db.users, x.email = u.email) →
      (signup u db).1 = .error (.httpException 400 "Email already registered")) := by
  refine ⟨?_, ?_, ?_, ?_⟩
  · intro hfresh
    have hnone : db.users.find? (fun x => x.username == u.username || x.email == u.email) = none := by
      rw [List.find?_eq_none]
      intro x hx
      obtain ⟨h1, h2⟩ := hfresh x hx
      simp [h1, h2]
    simp [signup, hnone, signupInsert]
  · intro hex
    have hsome : ∃ x, x ∈ db.users ∧ (x.username == u.username || x.email == u.email) = true := by
      rcases hex with ⟨x, hx, hu⟩ | ⟨x, hx, he⟩
      · exact ⟨x, hx, by simp [hu]⟩
      · exact ⟨x, hx, by simp [he]⟩
    obtain ⟨y, hfind⟩ := Option.isSome_iff_exists.mp (List.find?_isSome.mpr hsome)
    have hy := List.find?_some hfind
    simp only [signup, hfind]
    by_cases hyu : y.username == u.username
    · rw [if_pos hyu]
      exact ⟨rfl, Or.inl rfl⟩
    · rw [if_neg hyu]
      have hye : y.email == u.email := by
        rcases Bool.or_eq_true_iff.mp hy with h | h
        · exact absurd h hyu
        · exact h
      rw [if_pos hye]
      exact ⟨rfl, Or.inr rfl⟩
  · intro huser hmail
    have hsome : ∃ x, x ∈ db.users ∧ (x.username == u.username || x.email == u.email) = true := by
      obtain ⟨x, hx, hu⟩ := huser
      exact ⟨x, hx, by simp [hu]⟩
    obtain ⟨y, hfind⟩ := Option.isSome_iff_exists.mp (List.find?_isSome.mpr hsome)
    have hy := List.find?_some hfind
    have hymem := List.mem_of_find?_eq_some hfind
    have hymail : y.email ≠ u.email := hmail y hymem
    have hyu : y.username == u.username := by
      rcases Bool.or_eq_true_iff.mp hy with h | h
      · exact h
      · exact absurd (by simpa using h) hymail
    simp only [signup, hfind]
    rw [if_pos hyu]
  · intro huser hmail
    have hsome : ∃ x, x ∈ db.users ∧ (x.username == u.username || x.email == u.email) = true := by
      obtain ⟨x, hx, he⟩ := hmail
      exact ⟨x, hx, by simp [he]⟩
    obtain ⟨y, hfind⟩ := Option.isSome_iff_exists.mp (List.find?_isSome.mpr hsome)
    have hy := List.find?_some hfind
    have hymem := List.mem_of_find?_eq_some hfind
    have hyuser : y.username ≠ u.username := huser y hymem
    have hyu : ¬(y.username == u.username) = true := by simpa using hyuser
    have hye : y.email == u.email := by
      rcases Bool.or_eq_true_iff.mp hy with h | h
      · exact absurd h hyu
      · exact h
    simp only [signup, hfind]
    rw [if_neg hyu, if_pos hye]

/-- Witness for C5 (amended): registering bob into the empty database
succeeds and stores his row. -/
theorem signup_spec_amended_witness :
    (signup uBob emptyDB).1 = .ok "User created successfully"
    ∧ (signup uBob emptyDB).2.users = emptyDB.users ++
        [⟨emptyDB.users.length + 1, uBob.username, uBob.email, get_password_hash uBob.password⟩] :=
  (signup_spec_amended uBob emptyDB).1 (by decide)

/-- `pyIndex` at a member value: the index is in range, holds the value,
and is the first position holding it. -/
theorem pyIndex_first (l : List ℚ) (v : ℚ) (h : v ∈ l) :
    pyIndex l v < l.length ∧ l.getD (pyIndex l v) 0 = v
      ∧ ∀ j, j < pyIndex l v → l.getD j 0 ≠ v := by
  induction l with
  | nil => exact absurd h (List.not_mem_nil v)
  | cons x xs ih =>
    by_cases hx : x = v
    · have hp : pyIndex (x :: xs) v = 0 := by
        simp [pyIndex, List.findIdx_cons, hx]
      refine ⟨?_, ?_, ?_⟩
      · rw [hp]; exact Nat.succ_pos _
      · rw [hp]; simpa [List.getD_cons_zero] using hx
      · intro j hj; rw [hp] at hj; omega
    · have hmem : v ∈ xs := by
        rcases List.mem_cons.mp h with h' | h'
        · exact absurd h'.symm hx
        · exact h'
      obtain ⟨ih1, ih2, ih3⟩ := ih hmem
      have hp : pyIndex (x :: xs) v = pyIndex xs v + 1 := by
        simp [pyIndex, List.findIdx_cons, hx]
      refine ⟨?_, ?_, ?_⟩
      · rw [hp, List.length_cons]; omega
      · rw [hp]; simpa [List.getD_cons_succ] using ih2
      · intro j hj
        rw [hp] at hj
        cases j with
        | zero => simpa [List.getD_cons_zero] using hx
        | succ j2 => simpa [List.getD_cons_succ] using ih3 j2 (by omega)

/-- C3: on any successful run, the chosen emotion is the label of the first
index attaining the vector's maximum, an index at or beyond 28 falls back to
"neutral", and the persisted entry's `emotion_score` is exactly that
maximum. -/
theorem process_entry_argmax_spec (text : String) (probs : List ℚ) (date_str : String)
    (user : User) (db : DB) (m : ℚ) (d : Nat)
    (hm : pyMax probs = some m) (hd : parseDate date_str = some d) :
    ∃ r db2, process_entry_logic text probs date_str user db = (.ok r, db2)
      ∧ r.emotion = emotionLabelGet (pyIndex probs m)
      ∧ pyIndex probs m < probs.length
      ∧ probs.getD (pyIndex probs m) 0 = m
      ∧ (∀ j, j < pyIndex probs m → probs.getD j 0 ≠ m)
      ∧ m ∈ probs
      ∧ (∀ x ∈ probs, x ≤ m)
      ∧ db2.entries = db.entries ++ [madeEntry text probs user db d m]
      ∧ (madeEntry text probs user db d m).emotion_score = m
      ∧ (madeEntry text probs user db d m).emotion_primary = r.emotion
      ∧ (∀ i, 28 ≤ i → emotionLabelGet i = "neutral") := by
  obtain ⟨hmem, hub⟩ := pyMax_spec probs m hm
  obtain ⟨hlt, hval, hfirst⟩ := pyIndex_first probs m hmem
  exact ⟨_, _, process_entry_logic_ok_eq text probs date_str user db m d hm hd,
    rfl, hlt, hval, hfirst, hmem, hub, rfl, rfl, rfl, emotionLabelGet_ge⟩

/-- Probability vector used by the C3 witness: maximum 1, first attained at
index 1 (a tie with index 2). -/
def wProbs : List ℚ := [0, 1, 1, 0]

/-- Witness for C3: the tied maximum 1 of `wProbs` is picked at its first
index. -/
theorem process_entry_argmax_witness :
    ∃ r db2, process_entry_logic "hi" wProbs "2024-01-15" aliceUser dbAlice = (.ok r, db2)
      ∧ r.emotion = emotionLabelGet (pyIndex wProbs 1)
      ∧ pyIndex wProbs 1 < wProbs.length
      ∧ wProbs.getD (pyIndex wProbs 1) 0 = 1
      ∧ (∀ j, j < pyIndex wProbs 1 → wProbs.getD j 0 ≠ 1)
      ∧ (1 : ℚ) ∈ wProbs
      ∧ (∀ x ∈ wProbs, x ≤ (1 : ℚ))
      ∧ db2.entries = dbAlice.entries ++ [madeEntry "hi" wProbs aliceUser dbAlice 738900 1]
      ∧ (madeEntry "hi" wProbs aliceUser dbAlice 738900 1).emotion_score = 1
      ∧ (madeEntry "hi" wProbs aliceUser dbAlice 738900 1).emotion_primary = r.emotion
      ∧ (∀ i, 28 ≤ i → emotionLabelGet i = "neutral") :=
  process_entry_argmax_spec "hi" wProbs "2024-01-15" aliceUser dbAlice 1 738900
    (by decide) (by decide)

/-- C8: after a successful analyze, `history_count` is the number of the
caller's entries dated at or after the entry date minus 90 days, computed
on the post-state that already contains the just-inserted entry, which
itself satisfies the window predicate — so the count is at least 1. -/
theorem history_count_window_spec (text : String) (probs : List ℚ) (date_str : String)
    (user : User) (db : DB) (m : ℚ) (d : Nat)
    (hm : pyMax probs = some m) (hd : parseDate date_str = some d) :
    ∃ r db2, process_entry_logic text probs date_str user db = (.ok r, db2)
      ∧ db2.entries = db.entries ++ [madeEntry text probs user db d m]
      ∧ r.history_count = (db2.entries.filter (inWindow user d)).length
      ∧ inWindow user d (madeEntry text probs user db d m) = true
      ∧ 1 ≤ r.history_count := by
  have hwin : inWindow user d (madeEntry text probs user db d m) = true := by
    have hw : inWindow user d (madeEntry text probs user db d m)
        = decide (user.id = user.id ∧ (d : Int) - 90 ≤ (d : Int)) := rfl
    rw [hw, decide_eq_true_eq]
    exact ⟨rfl, by omega⟩
  refine ⟨_, _, process_entry_logic_ok_eq text probs date_str user db m d hm hd,
    rfl, rfl, hwin, ?_⟩
  show 1 ≤ ((db.entries ++ [madeEntry text probs user db d m]).filter (inWindow user d)).length
  rw [List.filter_append, List.length_append]
  have hlast : (List.filter (inWindow user d) [madeEntry text probs user db d m]).length = 1 := by
    simp [List.filter_cons, hwin]
  omega

/-- Witness for C8: bob's analyze on `dbHist` counts exactly the entries in
the 90-day window, including the new one. -/
theorem history_count_window_witness :
    ∃ r db2, process_entry_logic "log" [(0 : ℚ), 1] "2024-01-15" bobUser dbHist = (.ok r, db2)
      ∧ db2.entries = dbHist.entries ++ [madeEntry "log" [(0 : ℚ), 1] bobUser dbHist 738900 1]
      ∧ r.history_count = (db2.entries.filter (inWindow bobUser 738900)).length
      ∧ inWindow bobUser 738900 (madeEntry "log" [(0 : ℚ), 1] bobUser dbHist 738900 1) = true
      ∧ 1 ≤ r.history_count :=
  history_count_window_spec "log" [(0 : ℚ), 1] "2024-01-15" bobUser dbHist 1 738900
    (by decide) (by decide)

/-- Counterexample to C7: on the concrete malformed date "2024-13-05" the
analyze operation fails and persists nothing, but the failure is a raw
`ValueError` — not an HTTP client error — and on the audio path it is
re-raised as HTTP 500: the code never classifies a bad date as a
client-correctable validation error. -/
theorem invalid_date_not_client_error_counterexample :
    analyze_text "hello" [(0 : ℚ)] "2024-13-05" aliceUser dbAlice
      = (.error (.valueError "time data does not match format %Y-%m-%d"), dbAlice)
  ∧ isClientError (.valueError "time data does not match format %Y-%m-%d") = false
  ∧ (∀ st detail, PyErr.valueError "time data does not match format %Y-%m-%d"
      ≠ .httpException st detail)
  ∧ (analyze_audio none "hello" [(0 : ℚ)] "2024-13-05" aliceUser dbAlice false).response
      = .error (.httpException 500 "time data does not match format %Y-%m-%d")
  ∧ isClientError (.httpException 500 "time data does not match format %Y-%m-%d") = false := by
  refine ⟨by decide, by decide, fun st detail h => PyErr.noConfusion h, by decide, by decide⟩

/-- C7 (amended): for every unparsable date string the analyze operation
fails with the uncaught `ValueError` — surfaced as a server error (HTTP 500
on the audio path), not as a client-correctable validation error — and no
entry is persisted. -/
theorem invalid_date_fails_unpersisted (text : String) (probs : List ℚ) (date_str : String)
    (user : User) (db : DB)
    (hp : probs ≠ []) (hd : parseDate date_str = none) :
    analyze_text text probs date_str user db
      = (.error (.valueError "time data does not match format %Y-%m-%d"), db)
  ∧ isClientError (.valueError "time data does not match format %Y-%m-%d") = false
  ∧ (analyze_audio none text probs date_str user db false).db = db
  ∧ (pyStrip text ≠ "" →
      (analyze_audio none text probs date_str user db false).response
        = .error (.httpException 500 "time data does not match format %Y-%m-%d")) := by
  obtain ⟨m, hm⟩ := pyMax_of_ne_nil probs hp
  have hbadT := process_entry_logic_baddate text probs date_str user db m hm hd
  have hbadA := process_entry_logic_baddate (pyStrip text) probs date_str user db m hm hd
  refine ⟨hbadT, rfl, ?_, ?_⟩
  · by_cases hstrip : pyStrip text = ""
    · simp [analyze_audio, hstrip]
    · simp [analyze_audio, hstrip, hbadA]
  · intro hstrip
    simp [analyze_audio, hstrip, hbadA, pyStr]

/-- Witness for C7 (amended): concrete run on the malformed date
"2024-99-99". -/
theorem invalid_date_fails_witness :
    analyze_text "note" [(0 : ℚ)] "2024-99-99" aliceUser dbAlice
      = (.error (.valueError "time data does not match format %Y-%m-%d"), dbAlice)
  ∧ isClientError (.valueError "time data does not match format %Y-%m-%d") = false
  ∧ (analyze_audio none "note" [(0 : ℚ)] "2024-99-99" aliceUser dbAlice false).db = dbAlice
  ∧ (pyStrip "note" ≠ "" →
      (analyze_audio none "note" [(0 : ℚ)] "2024-99-99" aliceUser dbAlice false).response
        = .error (.httpException 500 "time data does not match format %Y-%m-%d")) :=
  invalid_date_fails_unpersisted "note" [(0 : ℚ)] "2024-99-99" aliceUser dbAlice
    (by decide) (by decide)

/-- C10: `analyze_text` performs no emptiness or whitespace check — for
every text, the empty string included, it succeeds and persists exactly one
entry (given a parsable date and the classifier's non-empty vector), while
the audio path is the only place an empty (stripped) input is rejected. -/
theorem analyze_text_no_empty_check (text : String) (probs : List ℚ) (date_str : String)
    (user : User) (db : DB) (m : ℚ) (d : Nat)
    (hm : pyMax probs = some m) (hd : parseDate date_str = some d) :
    (∃ r, (analyze_text text probs date_str user db).1 = .ok r)
  ∧ (analyze_text text probs date_str user db).2.entries.length = db.entries.length + 1
  ∧ (∀ fn tr pr u2 db2 rf, pyStrip tr = "" →
      (analyze_audio fn tr pr date_str u2 db2 rf).response
        = .error (.httpException 500 "400: Could not transcribe audio.")
      ∧ (analyze_audio fn tr pr date_str u2 db2 rf).db = db2) := by
  have hok := process_entry_logic_ok_eq text probs date_str user db m d hm hd
  refine ⟨⟨⟨emotionLabelGet (pyIndex probs m), pyRound2 (m * 100),
      insight (emotionLabelGet (pyIndex probs m)),
      ((db.entries ++ [madeEntry text probs user db d m]).filter (inWindow user d)).length⟩,
      ?_⟩, ?_, ?_⟩
  · show (process_entry_logic text probs date_str user db).1 = _
    rw [hok]
  · show (process_entry_logic text probs date_str user db).2.entries.length = _
    rw [hok]
    simp
  · intro fn tr pr u2 db2 rf htr
    have hps : pyStr (.httpException 400 "Could not transcribe audio.")
        = "400: Could not transcribe audio." := rfl
    refine ⟨?_, ?_⟩ <;> simp [analyze_audio, htr, hps]

/-- Witness for C10: the empty text is accepted and persisted. -/
theorem analyze_text_no_empty_check_witness :
    (∃ r, (analyze_text "" [(1 : ℚ)] "2024-01-15" bobUser dbHist).1 = .ok r)
  ∧ (analyze_text "" [(1 : ℚ)] "2024-01-15" bobUser dbHist).2.entries.length
      = dbHist.entries.length + 1
  ∧ (∀ fn tr pr u2 db2 rf, pyStrip tr = "" →
      (analyze_audio fn tr pr "2024-01-15" u2 db2 rf).response
        = .error (.httpException 500 "400: Could not transcribe audio.")
      ∧ (analyze_audio fn tr pr "2024-01-15" u2 db2 rf).db = db2) :=
  analyze_text_no_empty_check "" [(1 : ℚ)] "2024-01-15" bobUser dbHist 1 738900
    (by decide) (by decide)
